import Mathlib

/-!
Verification of the bento-layout validator
(`src/bento-layout-validator/src/validators/bentoValidator.ts`) against its
natural-language specification.  The data model and the validation function
are shallowly embedded below, following the TypeScript source line by line:
JavaScript `null`/`undefined` values are `Option.none`, object fields that
the code tests for truthiness before descending are `Option` fields, and the
template-literal error messages are rebuilt with `++` and `Nat.repr` /
`Int.repr` (the decimal rendering used by `toString` on numbers).
-/

/-- Innermost `sys` object of a content-type link: carries the
content-type identifier string. -/
structure ContentTypeSys where
  id : String
deriving DecidableEq, Repr

/-- The `contentType` object inside an entry's `sys`; its own `sys` field may
be missing on a malformed record. -/
structure ContentTypeRef where
  sys : Option ContentTypeSys
deriving DecidableEq, Repr

/-- The `sys` object of a linked entry; the `contentType` field may be
missing on a malformed record. -/
structure EntrySys where
  contentType : Option ContentTypeRef
deriving DecidableEq, Repr

/-- A linked entry record (`EntryProps`); only the nested
`sys.contentType.sys.id` path is ever read by the validator, so the
embedding keeps just that spine, each step optional. -/
structure EntryProps where
  sys : Option EntrySys
deriving DecidableEq, Repr

/-- One slot rule of `ValidationConfig.positions`: an index into the linked
items sequence plus the list of allowed content-type identifiers.  The index
is an `Int` because the TypeScript `number` field may be negative. -/
structure PositionRule where
  index : Int
  allowedTypes : List String
deriving DecidableEq, Repr

/-- The `limits` part of the configuration.  `totalEntries` is the exact
expected item count (a non-negative integer per the data model);
`typeLimits` is an optional mapping, kept as an association list in
declaration order, from content-type identifier to its maximum occurrence
count. -/
structure Limits where
  totalEntries : Nat
  typeLimits : Option (List (String × Nat))
deriving DecidableEq, Repr

/-- The validation configuration.  `positions` is the slot map, an
association list from slot name to rule kept in the declared key order
(JavaScript `for..in` insertion order for the non-numeric keys used as slot
names). -/
structure ValidationConfig where
  layoutType : String
  targetContentType : String
  validateField : List String
  positions : List (String × PositionRule)
  limits : Limits
deriving DecidableEq, Repr

/-- A single validation error, carrying only a human-readable message. -/
structure ValidationError where
  message : String
deriving DecidableEq, Repr

/-- The overall validation result. -/
structure ValidationResult where
  isValid : Bool
  errors : List ValidationError
deriving DecidableEq, Repr

/-- Embedding of `getContentTypeIdFromLink`: descend
`entry.sys.contentType.sys.id`, returning `none` as soon as a link in the
chain is absent (JavaScript falsy).  The final `id` is additionally required
to be non-empty, because the source's truthiness test `&& entry.sys
.contentType.sys.id` rejects the empty string. -/
def getContentTypeIdFromLink : Option EntryProps → Option String
  | none => none
  | some entry =>
    match entry.sys with
    | none => none
    | some s =>
      match s.contentType with
      | none => none
      | some ct =>
        match ct.sys with
        | none => none
        | some ctSys => if ctSys.id = "" then none else some ctSys.id

/-- Array indexing `linkedEntries[i]` for a possibly negative `i`: a
negative or out-of-bounds index yields JavaScript `undefined` (here `none`);
an in-bounds access yields the element itself, which may itself be a null
entry. -/
def entryAt (linkedEntries : List (Option EntryProps)) (i : Int) : Option EntryProps :=
  if i < 0 then none else linkedEntries.getD i.toNat none

/-- Message of the count-mismatch error (step 1 of the algorithm). -/
def mkCountMismatchMsg (expected actual : Nat) : String :=
  "Expected " ++ Nat.repr expected ++ " entries, but found " ++ Nat.repr actual ++ "."

/-- Message of the missing-entry error for a slot. -/
def mkMissingMsg (index : Int) (slotName : String) : String :=
  "Missing entry at position " ++ Int.repr index ++ " (" ++ slotName ++ ")."

/-- Message of the unresolvable-content-type error for a slot. -/
def mkCouldNotMsg (index : Int) (slotName : String) : String :=
  "Could not determine content type for entry at position " ++ Int.repr index ++ " (" ++ slotName ++ ")."

/-- Message of the disallowed-content-type error for a slot; the allowed
types are joined by a comma and a space in declared order. -/
def mkInvalidTypeMsg (typeId : String) (index : Int) (slotName : String) (allowedTypes : List String) : String :=
  "Invalid content type \x27" ++ typeId ++ "\x27 at position " ++ Int.repr index ++ " (" ++ slotName
    ++ "). Allowed types: " ++ String.intercalate ", " allowedTypes ++ "."

/-- Message of the type-limit error. -/
def mkTooManyMsg (typeId : String) (limit count : Nat) : String :=
  "Too many entries of type \x27" ++ typeId ++ "\x27. Expected maximum " ++ Nat.repr limit
    ++ ", but found " ++ Nat.repr count ++ "."

/-- Step 1 of the algorithm: the (possibly empty) list holding the
count-mismatch error. -/
def countMismatchErrors (totalEntries : Nat) (linkedEntries : List (Option EntryProps)) : List ValidationError :=
  if linkedEntries.length ≠ totalEntries then
    [⟨mkCountMismatchMsg totalEntries linkedEntries.length⟩]
  else []

/-- Errors contributed by one slot rule: the body of the `for..in` loop over
`config.positions`, with each `continue` of the source rendered as returning
the errors accumulated so far for the slot. -/
def slotErrors (linkedEntries : List (Option EntryProps)) (positionKey : String)
    (positionRule : PositionRule) : List ValidationError :=
  match entryAt linkedEntries positionRule.index with
  | none => [⟨mkMissingMsg positionRule.index positionKey⟩]
  | some entryAtIndex =>
    match getContentTypeIdFromLink (some entryAtIndex) with
    | none => [⟨mkCouldNotMsg positionRule.index positionKey⟩]
    | some entryContentTypeId =>
      if entryContentTypeId ∈ positionRule.allowedTypes then []
      else
        [⟨mkInvalidTypeMsg entryContentTypeId positionRule.index positionKey
            positionRule.allowedTypes⟩]

/-- Step 2 of the algorithm: concatenation of every slot's errors, in the
declared key order of `positions`. -/
def positionErrors (positions : List (String × PositionRule))
    (linkedEntries : List (Option EntryProps)) : List ValidationError :=
  positions.flatMap fun p => slotErrors linkedEntries p.1 p.2

/-- Tally of a content-type identifier across all items: entries whose type
is unresolvable are excluded (the source only increments the counter when
`getContentTypeIdFromLink` returns a truthy identifier). -/
def tallyOf (linkedEntries : List (Option EntryProps)) (typeKey : String) : Nat :=
  (linkedEntries.filterMap getContentTypeIdFromLink).count typeKey

/-- Step 3 of the algorithm: for each `(typeKey, limit)` pair of
`typeLimits` (when present), an error when the tally strictly exceeds the
limit; a missing tally defaults to `0` via `contentTypeCounts[typeKey] || 0`,
which `tallyOf` already returns for an absent key. -/
def typeLimitErrors (typeLimits : Option (List (String × Nat)))
    (linkedEntries : List (Option EntryProps)) : List ValidationError :=
  match typeLimits with
  | none => []
  | some tl =>
    tl.flatMap fun p =>
      if tallyOf linkedEntries p.1 > p.2 then
        [⟨mkTooManyMsg p.1 p.2 (tallyOf linkedEntries p.1)⟩]
      else []

/-- Embedding of `validateBentoLayout`: normalize a null/undefined input to
the empty list, run the count check, return early when both the expected
total and the actual length are zero, and otherwise append the per-slot and
type-limit errors; on every return path `isValid` is computed as
`errors.length == 0`. -/
def validateBentoLayout (config : ValidationConfig)
    (linkedEntriesInput : Option (List (Option EntryProps))) : ValidationResult :=
  let linkedEntries := linkedEntriesInput.getD []
  let countErrors := countMismatchErrors config.limits.totalEntries linkedEntries
  if config.limits.totalEntries = 0 ∧ linkedEntries.length = 0 then
    { isValid := countErrors.length == 0, errors := countErrors }
  else
    let errors := countErrors ++ positionErrors config.positions linkedEntries
      ++ typeLimitErrors config.limits.typeLimits linkedEntries
    { isValid := errors.length == 0, errors := errors }

/-- Convenience constructor for a well-formed linked entry of a given
content type. -/
def entryOfType (typeId : String) : Option EntryProps :=
  some ⟨some ⟨some ⟨some ⟨typeId⟩⟩⟩⟩

/-- The sample bento-1-2 configuration used as concrete test input. -/
def bentoConfig : ValidationConfig :=
  { layoutType := "bento-1-2"
    targetContentType := "CardsContainer"
    validateField := ["contentCards"]
    positions :=
      [ ("leftColumnFullHeightCard", { index := 0, allowedTypes := ["cardTypeA"] })
      , ("rightColumnTopCard", { index := 1, allowedTypes := ["cardTypeB", "cardTypeC"] })
      , ("rightColumnBottomCard", { index := 2, allowedTypes := ["cardTypeB"] }) ]
    limits :=
      { totalEntries := 3
        typeLimits := some [("cardTypeA", 1), ("cardTypeB", 2), ("cardTypeC", 1)] } }

/-- Configuration with zero expected entries but a non-empty slot map,
exercising the all-empty fast path's suppression of missing-entry errors. -/
def zeroTotalWithSlotConfig : ValidationConfig :=
  { layoutType := "bento-quirk"
    targetContentType := "CardsContainer"
    validateField := ["contentCards"]
    positions := [("leftColumnFullHeightCard", { index := 0, allowedTypes := ["cardTypeA"] })]
    limits := { totalEntries := 0, typeLimits := none } }

/-- Configuration declaring a slot with a negative index. -/
def negativeIndexConfig : ValidationConfig :=
  { layoutType := "bento-neg"
    targetContentType := "CardsContainer"
    validateField := ["contentCards"]
    positions := [("brokenSlot", { index := -1, allowedTypes := ["cardTypeA"] })]
    limits := { totalEntries := 1, typeLimits := none } }

/-- Numeric value step used to read a decimal digit string back. -/
def stepD (a : Nat) (c : Char) : Nat :=
  a * 10 + (c.toNat - 48)

example :
    validateBentoLayout bentoConfig
      (some [entryOfType "cardTypeA", entryOfType "cardTypeB", entryOfType "cardTypeB"])
      = { isValid := true, errors := [] } := by decide

example :
    ⟨mkTooManyMsg "cardTypeA" 1 2⟩ ∈
      (validateBentoLayout bentoConfig
        (some [entryOfType "cardTypeA", entryOfType "cardTypeA", entryOfType "cardTypeB"])).errors := by
  decide

example :
    (validateBentoLayout bentoConfig (some [])).errors =
      [ ⟨mkCountMismatchMsg 3 0⟩
      , ⟨mkMissingMsg 0 "leftColumnFullHeightCard"⟩
      , ⟨mkMissingMsg 1 "rightColumnTopCard"⟩
      , ⟨mkMissingMsg 2 "rightColumnBottomCard"⟩ ] := by decide

/-- C6: on every return path of `validateBentoLayout`, `isValid` equals the
test `errors.length == 0` of the very result — a derived field, never set
independently of the error list. -/
theorem C6_isValid_derived (config : ValidationConfig)
    (input : Option (List (Option EntryProps))) :
    (validateBentoLayout config input).isValid
      = ((validateBentoLayout config input).errors.length == 0) := by
  unfold validateBentoLayout
  by_cases h : config.limits.totalEntries = 0 ∧ (input.getD []).length = 0
  · simp only [if_pos h]
  · simp only [if_neg h]

/-- C3: for every configuration whose `limits.totalEntries` is `0` and an
absent or empty items sequence, the validator returns
`{ isValid := true, errors := [] }` immediately, whatever the declared
`positions` — no slot or type-limit checks contribute anything. -/
theorem C3_all_empty_fast_path (config : ValidationConfig)
    (h : config.limits.totalEntries = 0) :
    validateBentoLayout config none = { isValid := true, errors := [] }
      ∧ validateBentoLayout config (some []) = { isValid := true, errors := [] } := by
  constructor <;>
    simp [validateBentoLayout, countMismatchErrors, h, Option.getD]

/-- Witness for C3 at the zero-entries configuration that declares a slot:
the fast path fires even though the slot at index 0 can never be filled. -/
theorem C3_all_empty_fast_path_witness :
    validateBentoLayout zeroTotalWithSlotConfig none = { isValid := true, errors := [] }
      ∧ validateBentoLayout zeroTotalWithSlotConfig (some []) = { isValid := true, errors := [] } :=
  C3_all_empty_fast_path zeroTotalWithSlotConfig rfl

/-- C8: the validator is a pure function of its two arguments — calls on
structurally identical configurations and item sequences return structurally
identical results; there is no hidden state, randomness or time dependency
in the embedding, which mirrors a source function reading nothing but its
parameters and locals. -/
theorem C8_deterministic (config₁ config₂ : ValidationConfig)
    (input₁ input₂ : Option (List (Option EntryProps)))
    (hc : config₁ = config₂) (hi : input₁ = input₂) :
    validateBentoLayout config₁ input₁ = validateBentoLayout config₂ input₂ := by
  rw [hc, hi]

/-- Witness for C8: two structurally identical calls on the bento-1-2
sample agree. -/
theorem C8_deterministic_witness :
    validateBentoLayout bentoConfig
        (some [entryOfType "cardTypeA", entryOfType "cardTypeB", entryOfType "cardTypeB"])
      = validateBentoLayout bentoConfig
        (some [entryOfType "cardTypeA", entryOfType "cardTypeB", entryOfType "cardTypeB"]) :=
  C8_deterministic bentoConfig bentoConfig _ _ rfl rfl

/-- Indexing an empty sequence yields an absent entry for any index. -/
theorem entryAt_nil (i : Int) : entryAt [] i = none := by
  unfold entryAt
  split <;> rfl

/-- Indexing at or beyond the length of the sequence yields an absent
entry. -/
theorem entryAt_of_length_le (l : List (Option EntryProps)) (i : Int)
    (h : (l.length : Int) ≤ i) : entryAt l i = none := by
  unfold entryAt
  rw [if_neg (by omega)]
  simp only [List.getD_eq_getElem?_getD]
  rw [List.getElem?_eq_none (by omega)]
  rfl

/-- An in-bounds non-negative index yields the stored element itself. -/
theorem entryAt_of_lt (l : List (Option EntryProps)) (i : Int)
    (h0 : 0 ≤ i) (hlt : i.toNat < l.length) :
    entryAt l i = l.get ⟨i.toNat, hlt⟩ := by
  unfold entryAt
  rw [if_neg (by omega)]
  simp [List.getD_eq_getElem?_getD, List.getElem?_eq_getElem hlt]

/-- When an entry is found at some index the sequence is non-empty. -/
theorem length_pos_of_entryAt_some (l : List (Option EntryProps)) (i : Int)
    (e : EntryProps) (h : entryAt l i = some e) : l.length ≠ 0 := by
  intro hlen
  rw [List.length_eq_zero.mp hlen, entryAt_nil] at h
  exact Option.noConfusion h

/-- Outside the all-empty fast path, the validator's error list is the
concatenation of the three check stages. -/
theorem validate_errors_of_not_fast (config : ValidationConfig)
    (input : Option (List (Option EntryProps)))
    (h : ¬ (config.limits.totalEntries = 0 ∧ (input.getD []).length = 0)) :
    (validateBentoLayout config input).errors
      = countMismatchErrors config.limits.totalEntries (input.getD [])
        ++ positionErrors config.positions (input.getD [])
        ++ typeLimitErrors config.limits.typeLimits (input.getD []) := by
  unfold validateBentoLayout
  simp only [if_neg h]

/-- Derived-field helper: `isValid` always equals `errors.length == 0`. -/
theorem validate_isValid_eq (config : ValidationConfig)
    (input : Option (List (Option EntryProps))) :
    (validateBentoLayout config input).isValid
      = ((validateBentoLayout config input).errors.length == 0) := by
  unfold validateBentoLayout
  by_cases h : config.limits.totalEntries = 0 ∧ (input.getD []).length = 0
  · simp only [if_pos h]
  · simp only [if_neg h]

/-- Any error produced by a declared slot's check is in the step-2 error
list. -/
theorem mem_positionErrors_of (positions : List (String × PositionRule))
    (l : List (Option EntryProps)) (slotName : String) (rule : PositionRule)
    (e : ValidationError) (hmem : (slotName, rule) ∈ positions)
    (he : e ∈ slotErrors l slotName rule) : e ∈ positionErrors positions l := by
  unfold positionErrors
  exact List.mem_flatMap.mpr ⟨(slotName, rule), hmem, he⟩

/-- Step-2 errors split around any decomposition of the slot list. -/
theorem positionErrors_append (pre post : List (String × PositionRule))
    (slotName : String) (rule : PositionRule) (l : List (Option EntryProps)) :
    positionErrors (pre ++ (slotName, rule) :: post) l
      = positionErrors pre l ++ slotErrors l slotName rule ++ positionErrors post l := by
  simp [positionErrors, List.flatMap_append, List.flatMap_cons, List.append_assoc]

/-- C1 counterexample: with `totalEntries = 0`, a declared slot at index 0
and an empty items sequence, the slot's index is at or beyond the sequence
length, yet the all-empty fast path returns an empty error list, so the
claimed "Missing entry" message is absent from the result. -/
theorem C1_counterexample_fast_path_suppression :
    ("leftColumnFullHeightCard", ({ index := 0, allowedTypes := ["cardTypeA"] } : PositionRule))
        ∈ zeroTotalWithSlotConfig.positions
      ∧ (((((some []) : Option (List (Option EntryProps))).getD []).length : Int)
          ≤ (0 : Int))
      ∧ ⟨mkMissingMsg 0 "leftColumnFullHeightCard"⟩
          ∉ (validateBentoLayout zeroTotalWithSlotConfig (some [])).errors := by
  refine ⟨by decide, by decide, by decide⟩

/-- C1 (amended): for every config and items sequence outside the all-empty
fast path (`totalEntries = 0` with an empty items sequence), every slot rule
whose index is at or beyond the items length contributes exactly the
"Missing entry" message, which appears in the result's error list, and no
further checks run for that slot. -/
theorem C1_missing_entry_amended (config : ValidationConfig)
    (input : Option (List (Option EntryProps))) (slotName : String) (rule : PositionRule)
    (hmem : (slotName, rule) ∈ config.positions)
    (habsent : (((input.getD []).length : Nat) : Int) ≤ rule.index)
    (hnf : ¬ (config.limits.totalEntries = 0 ∧ (input.getD []).length = 0)) :
    ⟨mkMissingMsg rule.index slotName⟩ ∈ (validateBentoLayout config input).errors
      ∧ slotErrors (input.getD []) slotName rule = [⟨mkMissingMsg rule.index slotName⟩] := by
  have hslot : slotErrors (input.getD []) slotName rule
      = [⟨mkMissingMsg rule.index slotName⟩] := by
    unfold slotErrors
    rw [entryAt_of_length_le _ _ habsent]
  refine ⟨?_, hslot⟩
  rw [validate_errors_of_not_fast config input hnf]
  simp only [List.mem_append]
  exact Or.inl (Or.inr (mem_positionErrors_of _ _ _ _ _ hmem (by rw [hslot]; exact List.mem_singleton.mpr rfl)))

/-- Witness for the amended C1: the bento-1-2 configuration with a single
provided item is missing its index-1 slot entry. -/
theorem C1_missing_entry_amended_witness :
    ⟨mkMissingMsg 1 "rightColumnTopCard"⟩
        ∈ (validateBentoLayout bentoConfig (some [entryOfType "cardTypeA"])).errors
      ∧ slotErrors [entryOfType "cardTypeA"] "rightColumnTopCard"
          { index := 1, allowedTypes := ["cardTypeB", "cardTypeC"] }
        = [⟨mkMissingMsg 1 "rightColumnTopCard"⟩] :=
  C1_missing_entry_amended bentoConfig (some [entryOfType "cardTypeA"])
    "rightColumnTopCard" { index := 1, allowedTypes := ["cardTypeB", "cardTypeC"] }
    (by decide) (by decide) (by decide)

/-- C5: a slot whose entry is present and resolves to a content type not in
the rule's allowed list contributes the exact "Invalid content type"
message, with the allowed types joined by a comma and a space in declared
order, and that message appears in the result's error list. -/
theorem C5_disallowed_type (config : ValidationConfig)
    (input : Option (List (Option EntryProps))) (slotName : String) (rule : PositionRule)
    (e : EntryProps) (typeId : String)
    (hentry : entryAt (input.getD []) rule.index = some e)
    (htype : getContentTypeIdFromLink (some e) = some typeId)
    (hnot : typeId ∉ rule.allowedTypes)
    (hmem : (slotName, rule) ∈ config.positions) :
    ⟨mkInvalidTypeMsg typeId rule.index slotName rule.allowedTypes⟩
        ∈ (validateBentoLayout config input).errors
      ∧ slotErrors (input.getD []) slotName rule
        = [⟨mkInvalidTypeMsg typeId rule.index slotName rule.allowedTypes⟩] := by
  have hnf : ¬ (config.limits.totalEntries = 0 ∧ (input.getD []).length = 0) :=
    fun hc => length_pos_of_entryAt_some _ _ _ hentry hc.2
  have hslot : slotErrors (input.getD []) slotName rule
      = [⟨mkInvalidTypeMsg typeId rule.index slotName rule.allowedTypes⟩] := by
    simp [slotErrors, hentry, htype, hnot]
  refine ⟨?_, hslot⟩
  rw [validate_errors_of_not_fast config input hnf]
  simp only [List.mem_append]
  exact Or.inl (Or.inr (mem_positionErrors_of _ _ _ _ _ hmem (by rw [hslot]; exact List.mem_singleton.mpr rfl)))

/-- Witness for C5: a cardTypeC entry in the index-2 slot, which only allows
cardTypeB. -/
theorem C5_disallowed_type_witness :
    ⟨mkInvalidTypeMsg "cardTypeC" 2 "rightColumnBottomCard" ["cardTypeB"]⟩
        ∈ (validateBentoLayout bentoConfig
            (some [entryOfType "cardTypeA", entryOfType "cardTypeB", entryOfType "cardTypeC"])).errors
      ∧ slotErrors [entryOfType "cardTypeA", entryOfType "cardTypeB", entryOfType "cardTypeC"]
          "rightColumnBottomCard" { index := 2, allowedTypes := ["cardTypeB"] }
        = [⟨mkInvalidTypeMsg "cardTypeC" 2 "rightColumnBottomCard" ["cardTypeB"]⟩] :=
  C5_disallowed_type bentoConfig
    (some [entryOfType "cardTypeA", entryOfType "cardTypeB", entryOfType "cardTypeC"])
    "rightColumnBottomCard" { index := 2, allowedTypes := ["cardTypeB"] }
    ⟨some ⟨some ⟨some ⟨"cardTypeC"⟩⟩⟩⟩ "cardTypeC" (by decide) (by decide) (by decide) (by decide)

/-- C7: when the entry at a slot's index is present but the content-type
lookup fails, the validator appends the "Could not determine content type"
error for that slot and continues: the error list decomposes around the
slot, with the slots before and after it still evaluated, and the slot
itself contributes exactly that one error (the embedding is a total
function, so no exception path exists). -/
theorem C7_unresolvable_type_degrades (config : ValidationConfig)
    (input : Option (List (Option EntryProps)))
    (pre post : List (String × PositionRule)) (slotName : String) (rule : PositionRule)
    (e : EntryProps)
    (hpos : config.positions = pre ++ (slotName, rule) :: post)
    (hentry : entryAt (input.getD []) rule.index = some e)
    (hlookup : getContentTypeIdFromLink (some e) = none) :
    (validateBentoLayout config input).errors
      = countMismatchErrors config.limits.totalEntries (input.getD [])
        ++ positionErrors pre (input.getD [])
        ++ [⟨mkCouldNotMsg rule.index slotName⟩]
        ++ positionErrors post (input.getD [])
        ++ typeLimitErrors config.limits.typeLimits (input.getD [])
      ∧ ⟨mkCouldNotMsg rule.index slotName⟩ ∈ (validateBentoLayout config input).errors
      ∧ slotErrors (input.getD []) slotName rule = [⟨mkCouldNotMsg rule.index slotName⟩] := by
  have hnf : ¬ (config.limits.totalEntries = 0 ∧ (input.getD []).length = 0) :=
    fun hc => length_pos_of_entryAt_some _ _ _ hentry hc.2
  have hslot : slotErrors (input.getD []) slotName rule
      = [⟨mkCouldNotMsg rule.index slotName⟩] := by
    simp [slotErrors, hentry, hlookup]
  have herr : (validateBentoLayout config input).errors
      = countMismatchErrors config.limits.totalEntries (input.getD [])
        ++ positionErrors pre (input.getD [])
        ++ [⟨mkCouldNotMsg rule.index slotName⟩]
        ++ positionErrors post (input.getD [])
        ++ typeLimitErrors config.limits.typeLimits (input.getD []) := by
    rw [validate_errors_of_not_fast config input hnf, hpos,
      positionErrors_append pre post slotName rule (input.getD []), hslot]
    simp [List.append_assoc]
  refine ⟨herr, ?_, hslot⟩
  rw [herr]
  simp

/-- Witness for C7: a malformed second entry (no `contentType` on its
`sys`) in the bento-1-2 layout degrades to the specific lookup-failure
error while the other two slots are still checked. -/
theorem C7_unresolvable_type_degrades_witness :
    (validateBentoLayout bentoConfig
        (some [entryOfType "cardTypeA", some ⟨some ⟨none⟩⟩, entryOfType "cardTypeB"])).errors
      = countMismatchErrors 3 [entryOfType "cardTypeA", some ⟨some ⟨none⟩⟩, entryOfType "cardTypeB"]
        ++ positionErrors [("leftColumnFullHeightCard", { index := 0, allowedTypes := ["cardTypeA"] })]
            [entryOfType "cardTypeA", some ⟨some ⟨none⟩⟩, entryOfType "cardTypeB"]
        ++ [⟨mkCouldNotMsg 1 "rightColumnTopCard"⟩]
        ++ positionErrors [("rightColumnBottomCard", { index := 2, allowedTypes := ["cardTypeB"] })]
            [entryOfType "cardTypeA", some ⟨some ⟨none⟩⟩, entryOfType "cardTypeB"]
        ++ typeLimitErrors (some [("cardTypeA", 1), ("cardTypeB", 2), ("cardTypeC", 1)])
            [entryOfType "cardTypeA", some ⟨some ⟨none⟩⟩, entryOfType "cardTypeB"]
      ∧ ⟨mkCouldNotMsg 1 "rightColumnTopCard"⟩
          ∈ (validateBentoLayout bentoConfig
              (some [entryOfType "cardTypeA", some ⟨some ⟨none⟩⟩, entryOfType "cardTypeB"])).errors
      ∧ slotErrors [entryOfType "cardTypeA", some ⟨some ⟨none⟩⟩, entryOfType "cardTypeB"]
          "rightColumnTopCard" { index := 1, allowedTypes := ["cardTypeB", "cardTypeC"] }
        = [⟨mkCouldNotMsg 1 "rightColumnTopCard"⟩] :=
  C7_unresolvable_type_degrades bentoConfig
    (some [entryOfType "cardTypeA", some ⟨some ⟨none⟩⟩, entryOfType "cardTypeB"])
    [("leftColumnFullHeightCard", { index := 0, allowedTypes := ["cardTypeA"] })]
    [("rightColumnBottomCard", { index := 2, allowedTypes := ["cardTypeB"] })]
    "rightColumnTopCard" { index := 1, allowedTypes := ["cardTypeB", "cardTypeC"] }
    ⟨some ⟨none⟩⟩ (by decide) (by decide) (by decide)

/-- C9: a null (falsy) element stored at an in-bounds index referenced by a
slot rule is treated exactly like an out-of-bounds index — the slot
contributes only the "Missing entry" message, which appears in the
result's error list, and the content-type checks for that slot are
skipped. -/
theorem C9_null_element_is_missing (config : ValidationConfig)
    (input : Option (List (Option EntryProps))) (slotName : String) (rule : PositionRule)
    (hmem : (slotName, rule) ∈ config.positions)
    (h0 : 0 ≤ rule.index)
    (hlt : rule.index.toNat < (input.getD []).length)
    (hnull : (input.getD []).get ⟨rule.index.toNat, hlt⟩ = none) :
    ⟨mkMissingMsg rule.index slotName⟩ ∈ (validateBentoLayout config input).errors
      ∧ slotErrors (input.getD []) slotName rule = [⟨mkMissingMsg rule.index slotName⟩] := by
  have habs : entryAt (input.getD []) rule.index = none := by
    rw [entryAt_of_lt _ _ h0 hlt, hnull]
  have hnf : ¬ (config.limits.totalEntries = 0 ∧ (input.getD []).length = 0) :=
    fun hc => by omega
  have hslot : slotErrors (input.getD []) slotName rule
      = [⟨mkMissingMsg rule.index slotName⟩] := by
    simp [slotErrors, habs]
  refine ⟨?_, hslot⟩
  rw [validate_errors_of_not_fast config input hnf]
  simp only [List.mem_append]
  exact Or.inl (Or.inr (mem_positionErrors_of _ _ _ _ _ hmem (by rw [hslot]; exact List.mem_singleton.mpr rfl)))

/-- Witness for C9: a null element in the middle of an otherwise full item
list yields the index-1 missing-entry error. -/
theorem C9_null_element_is_missing_witness :
    ⟨mkMissingMsg 1 "rightColumnTopCard"⟩
        ∈ (validateBentoLayout bentoConfig
            (some [entryOfType "cardTypeA", none, entryOfType "cardTypeB"])).errors
      ∧ slotErrors [entryOfType "cardTypeA", none, entryOfType "cardTypeB"]
          "rightColumnTopCard" { index := 1, allowedTypes := ["cardTypeB", "cardTypeC"] }
        = [⟨mkMissingMsg 1 "rightColumnTopCard"⟩] :=
  C9_null_element_is_missing bentoConfig
    (some [entryOfType "cardTypeA", none, entryOfType "cardTypeB"])
    "rightColumnTopCard" { index := 1, allowedTypes := ["cardTypeB", "cardTypeC"] }
    (by decide) (by decide) (by decide) (by decide)

/-- C10: a slot rule with a negative index is total and always missing: the
out-of-range access yields an absent entry, the slot contributes exactly the
"Missing entry" message, and whenever such a slot is declared in a
configuration evaluated outside the all-empty fast path, that message
appears in the result's error list. -/
theorem C10_negative_index_always_missing (l : List (Option EntryProps))
    (slotName : String) (rule : PositionRule) (hneg : rule.index < 0) :
    entryAt l rule.index = none
      ∧ slotErrors l slotName rule = [⟨mkMissingMsg rule.index slotName⟩]
      ∧ ∀ (config : ValidationConfig) (input : Option (List (Option EntryProps))),
          (slotName, rule) ∈ config.positions → input.getD [] = l →
          ¬ (config.limits.totalEntries = 0 ∧ l.length = 0) →
          ⟨mkMissingMsg rule.index slotName⟩ ∈ (validateBentoLayout config input).errors := by
  have habs : entryAt l rule.index = none := by
    unfold entryAt
    rw [if_pos hneg]
  have hslot : slotErrors l slotName rule = [⟨mkMissingMsg rule.index slotName⟩] := by
    simp [slotErrors, habs]
  refine ⟨habs, hslot, ?_⟩
  intro config input hmem hl hnf
  rw [validate_errors_of_not_fast config input (by rw [hl]; exact hnf)]
  simp only [List.mem_append]
  exact Or.inl (Or.inr (mem_positionErrors_of _ _ _ _ _ hmem
    (by rw [hl, hslot]; exact List.mem_singleton.mpr rfl)))

/-- Helper for reasoning about decimal rendering: `toDigitsCore` emits the
accumulator unchanged at the end of its output. -/
theorem toDigitsCore_acc_eq : ∀ (fuel n : Nat) (acc : List Char),
    Nat.toDigitsCore 10 fuel n acc = Nat.toDigitsCore 10 fuel n [] ++ acc := by
  intro fuel
  induction fuel with
  | zero => intro n acc; simp [Nat.toDigitsCore]
  | succ f ih =>
    intro n acc
    simp only [Nat.toDigitsCore]
    by_cases h : n / 10 = 0
    · rw [if_pos h, if_pos h]
      simp
    · rw [if_neg h, if_neg h]
      rw [ih (n / 10) [Nat.digitChar (n % 10)], ih (n / 10) (Nat.digitChar (n % 10) :: acc)]
      simp

/-- Helper: the decimal rendering does not depend on the fuel, as long as
the fuel exceeds the number being rendered. -/
theorem toDigitsCore_fuel_eq : ∀ (n f₁ f₂ : Nat) (acc : List Char), n < f₁ → n < f₂ →
    Nat.toDigitsCore 10 f₁ n acc = Nat.toDigitsCore 10 f₂ n acc := by
  intro n
  induction n using Nat.strong_induction_on with
  | _ n ih =>
    intro f₁ f₂ acc h₁ h₂
    cases f₁ with
    | zero => omega
    | succ fa =>
      cases f₂ with
      | zero => omega
      | succ fb =>
        simp only [Nat.toDigitsCore]
        by_cases h : n / 10 = 0
        · rw [if_pos h, if_pos h]
        · rw [if_neg h, if_neg h]
          exact ih (n / 10) (by omega) fa fb _ (by omega) (by omega)

/-- Decimal rendering of a single-digit number. -/
theorem toDigits_of_lt_ten (n : Nat) (h : n < 10) :
    Nat.toDigits 10 n = [Nat.digitChar n] := by
  unfold Nat.toDigits
  simp only [Nat.toDigitsCore]
  rw [if_pos (Nat.div_eq_of_lt h), Nat.mod_eq_of_lt h]

/-- Decimal rendering of a multi-digit number splits off its last digit. -/
theorem toDigits_of_ten_le (n : Nat) (h : 10 ≤ n) :
    Nat.toDigits 10 n = Nat.toDigits 10 (n / 10) ++ [Nat.digitChar (n % 10)] := by
  unfold Nat.toDigits
  conv_lhs => simp only [Nat.toDigitsCore]
  rw [if_neg (by omega)]
  rw [toDigitsCore_acc_eq n (n / 10) [Nat.digitChar (n % 10)]]
  rw [toDigitsCore_fuel_eq (n / 10) n (n / 10 + 1) [] (by omega) (by omega)]

/-- Code points of the decimal digit characters. -/
theorem digitChar_toNat : ∀ m, m < 10 → (Nat.digitChar m).toNat = m + 48 := by decide

/-- Decimal digit characters satisfy `Char.isDigit`. -/
theorem digitChar_isDigit : ∀ m, m < 10 → (Nat.digitChar m).isDigit = true := by decide

/-- Reading the decimal rendering back with `stepD` recovers the number. -/
theorem foldl_stepD_toDigits : ∀ n : Nat, List.foldl stepD 0 (Nat.toDigits 10 n) = n := by
  intro n
  induction n using Nat.strong_induction_on with
  | _ n ih =>
    by_cases h : n < 10
    · rw [toDigits_of_lt_ten n h]
      simp only [List.foldl_cons, List.foldl_nil, stepD]
      rw [digitChar_toNat n h]
      omega
    · rw [toDigits_of_ten_le n (by omega)]
      rw [List.foldl_append]
      rw [ih (n / 10) (by omega)]
      simp only [List.foldl_cons, List.foldl_nil, stepD]
      rw [digitChar_toNat (n % 10) (by omega)]
      omega

/-- The character list of a decimal rendering determines the number. -/
theorem repr_data_inj (m n : Nat) (h : (Nat.repr m).data = (Nat.repr n).data) : m = n := by
  have h₂ : Nat.toDigits 10 m = Nat.toDigits 10 n := h
  calc m = List.foldl stepD 0 (Nat.toDigits 10 m) := (foldl_stepD_toDigits m).symm
    _ = List.foldl stepD 0 (Nat.toDigits 10 n) := by rw [h₂]
    _ = n := foldl_stepD_toDigits n

/-- Every character of a decimal rendering is a digit. -/
theorem toDigits_isDigit : ∀ (n : Nat) (c : Char), c ∈ Nat.toDigits 10 n → c.isDigit = true := by
  intro n
  induction n using Nat.strong_induction_on with
  | _ n ih =>
    intro c hc
    by_cases h : n < 10
    · rw [toDigits_of_lt_ten n h] at hc
      rw [List.mem_singleton.mp hc]
      exact digitChar_isDigit n h
    · rw [toDigits_of_ten_le n (by omega)] at hc
      rcases List.mem_append.mp hc with h₁ | h₂
      · exact ih (n / 10) (by omega) c h₁
      · rw [List.mem_singleton.mp h₂]
        exact digitChar_isDigit (n % 10) (by omega)

/-- Every character of the reversed decimal rendering of `n` is a digit. -/
theorem repr_reverse_isDigit (n : Nat) (c : Char) (hc : c ∈ (Nat.repr n).data.reverse) :
    c.isDigit = true :=
  toDigits_isDigit n c (List.mem_reverse.mp hc)

/-- Two decompositions of a character list as a digit run followed by a
space-led tail agree componentwise: a digit run cannot absorb the space. -/
theorem digit_run_cancel : ∀ (d₁ d₂ a b : List Char),
    (∀ c ∈ d₁, c.isDigit = true) → (∀ c ∈ d₂, c.isDigit = true) →
    d₁ ++ ' ' :: a = d₂ ++ ' ' :: b → d₁ = d₂ ∧ a = b := by
  intro d₁
  induction d₁ with
  | nil =>
    intro d₂ a b _ hd₂ h
    cases d₂ with
    | nil =>
      simp only [List.nil_append, List.cons_eq_cons] at h
      exact ⟨rfl, h.2⟩
    | cons c₂ t₂ =>
      simp only [List.nil_append, List.cons_append, List.cons_eq_cons] at h
      have hdig := hd₂ c₂ (List.mem_cons_self c₂ t₂)
      rw [← h.1] at hdig
      exact absurd hdig (by decide)
  | cons c₁ t₁ ih =>
    intro d₂ a b hd₁ hd₂ h
    cases d₂ with
    | nil =>
      simp only [List.nil_append, List.cons_append, List.cons_eq_cons] at h
      have hdig := hd₁ c₁ (List.mem_cons_self c₁ t₁)
      rw [h.1] at hdig
      exact absurd hdig (by decide)
    | cons c₂ t₂ =>
      simp only [List.cons_append, List.cons_eq_cons] at h
      obtain ⟨e₁, e₂⟩ := ih t₂ a b (fun c hc => hd₁ c (List.mem_cons_of_mem c₁ hc))
        (fun c hc => hd₂ c (List.mem_cons_of_mem c₂ hc)) h.2
      exact ⟨by rw [h.1, e₁], e₂⟩

/-- Helper: a string is determined by its character list. -/
theorem string_data_inj (s₁ s₂ : String) (h : s₁.data = s₂.data) : s₁ = s₂ := by
  cases s₁
  cases s₂
  exact congrArg String.mk h

/-- The "Too many entries" message determines the type identifier, the
limit and the count: parsing it from the right, the trailing period, the
digit run of the count, the literal ", but found ", the digit run of the
limit and the literal separator before it are all recovered uniquely,
because a decimal digit run cannot absorb the space that precedes it. -/
theorem mkTooManyMsg_inj (t₁ t₂ : String) (l₁ l₂ c₁ c₂ : Nat)
    (h : mkTooManyMsg t₁ l₁ c₁ = mkTooManyMsg t₂ l₂ c₂) :
    t₁ = t₂ ∧ l₁ = l₂ ∧ c₁ = c₂ := by
  have hd := congrArg (fun s => s.data.reverse) h
  simp only [mkTooManyMsg, String.data_append, List.reverse_append, List.append_assoc] at hd
  rw [show (".").data.reverse = ['.'] from rfl] at hd
  rw [show (", but found ").data.reverse = ' ' :: (", but found").data.reverse from rfl] at hd
  rw [show ("\x27. Expected maximum ").data.reverse
      = ' ' :: ("\x27. Expected maximum").data.reverse from rfl] at hd
  simp only [List.singleton_append, List.cons_append] at hd
  rw [List.cons_eq_cons] at hd
  obtain ⟨-, hd⟩ := hd
  obtain ⟨hc, hd⟩ := digit_run_cancel _ _ _ _
    (fun c hc => repr_reverse_isDigit c₁ c hc) (fun c hc => repr_reverse_isDigit c₂ c hc) hd
  have hceq : c₁ = c₂ := repr_data_inj _ _ (List.reverse_injective hc)
  have hd := List.append_cancel_left hd
  obtain ⟨hl, hd⟩ := digit_run_cancel _ _ _ _
    (fun c hc => repr_reverse_isDigit l₁ c hc) (fun c hc => repr_reverse_isDigit l₂ c hc) hd
  have hleq : l₁ = l₂ := repr_data_inj _ _ (List.reverse_injective hl)
  have hd := List.append_cancel_left hd
  have ht := List.append_cancel_right hd
  exact ⟨string_data_inj t₁ t₂ (List.reverse_injective ht), hleq, hceq⟩

/-- First character of the count-mismatch message. -/
theorem head_mkCountMismatchMsg (e a : Nat) :
    (mkCountMismatchMsg e a).data.head? = some 'E' := by
  have h : ("Expected ").data = 'E' :: ("xpected ").data := rfl
  simp only [mkCountMismatchMsg, String.data_append, List.append_assoc, h, List.cons_append,
    List.head?_cons]

/-- First character of the missing-entry message. -/
theorem head_mkMissingMsg (i : Int) (s : String) :
    (mkMissingMsg i s).data.head? = some 'M' := by
  have h : ("Missing entry at position ").data = 'M' :: ("issing entry at position ").data := rfl
  simp only [mkMissingMsg, String.data_append, List.append_assoc, h, List.cons_append,
    List.head?_cons]

/-- First character of the unresolvable-content-type message. -/
theorem head_mkCouldNotMsg (i : Int) (s : String) :
    (mkCouldNotMsg i s).data.head? = some 'C' := by
  have h : ("Could not determine content type for entry at position ").data
      = 'C' :: ("ould not determine content type for entry at position ").data := rfl
  simp only [mkCouldNotMsg, String.data_append, List.append_assoc, h, List.cons_append,
    List.head?_cons]

/-- First character of the disallowed-content-type message. -/
theorem head_mkInvalidTypeMsg (t : String) (i : Int) (s : String) (allowed : List String) :
    (mkInvalidTypeMsg t i s allowed).data.head? = some 'I' := by
  have h : ("Invalid content type \x27").data = 'I' :: ("nvalid content type \x27").data := rfl
  simp only [mkInvalidTypeMsg, String.data_append, List.append_assoc, h, List.cons_append,
    List.head?_cons]

/-- First character of the type-limit message. -/
theorem head_mkTooManyMsg (t : String) (l c : Nat) :
    (mkTooManyMsg t l c).data.head? = some 'T' := by
  have h : ("Too many entries of type \x27").data = 'T' :: ("oo many entries of type \x27").data := rfl
  simp only [mkTooManyMsg, String.data_append, List.append_assoc, h, List.cons_append,
    List.head?_cons]

/-- Every count-check error message starts with the letter E. -/
theorem mem_countMismatchErrors_head (tot : Nat) (l : List (Option EntryProps))
    (e : ValidationError) (he : e ∈ countMismatchErrors tot l) :
    e.message.data.head? = some 'E' := by
  unfold countMismatchErrors at he
  split at he
  · rw [List.mem_singleton.mp he]
    exact head_mkCountMismatchMsg _ _
  · exact absurd he (List.not_mem_nil e)

/-- Every slot-check error message starts with M, C or I. -/
theorem mem_positionErrors_head (positions : List (String × PositionRule))
    (l : List (Option EntryProps)) (e : ValidationError)
    (he : e ∈ positionErrors positions l) :
    e.message.data.head? = some 'M' ∨ e.message.data.head? = some 'C'
      ∨ e.message.data.head? = some 'I' := by
  simp only [positionErrors, List.mem_flatMap] at he
  obtain ⟨p, -, hep⟩ := he
  unfold slotErrors at hep
  rcases hA : entryAt l p.2.index with _ | ent
  · simp only [hA] at hep
    left
    rw [List.mem_singleton.mp hep]
    exact head_mkMissingMsg _ _
  · simp only [hA] at hep
    rcases hB : getContentTypeIdFromLink (some ent) with _ | tid
    · simp only [hB] at hep
      right; left
      rw [List.mem_singleton.mp hep]
      exact head_mkCouldNotMsg _ _
    · simp only [hB] at hep
      by_cases hC : tid ∈ p.2.allowedTypes
      · rw [if_pos hC] at hep
        exact absurd hep (List.not_mem_nil e)
      · rw [if_neg hC] at hep
        right; right
        rw [List.mem_singleton.mp hep]
        exact head_mkInvalidTypeMsg _ _ _ _

/-- Every type-limit error message starts with the letter T. -/
theorem mem_typeLimitErrors_head (tls : Option (List (String × Nat)))
    (l : List (Option EntryProps)) (e : ValidationError)
    (he : e ∈ typeLimitErrors tls l) : e.message.data.head? = some 'T' := by
  rcases tls with _ | tl
  · simp [typeLimitErrors] at he
  · simp only [typeLimitErrors, List.mem_flatMap] at he
    obtain ⟨p, -, hep⟩ := he
    by_cases hC : tallyOf l p.1 > p.2
    · rw [if_pos hC] at hep
      rw [List.mem_singleton.mp hep]
      exact head_mkTooManyMsg _ _ _
    · rw [if_neg hC] at hep
      exact absurd hep (List.not_mem_nil e)

/-- C2: with `typeLimits` present, for every `(typeId, limit)` pair the
result contains the exact "Too many entries" message — whose count field is
the tally of `typeId` across all items, unresolvable items excluded — if
and only if that tally strictly exceeds the limit. -/
theorem C2_type_limit_iff (config : ValidationConfig)
    (input : Option (List (Option EntryProps))) (typeId : String) (limit : Nat)
    (tl : List (String × Nat))
    (htl : config.limits.typeLimits = some tl)
    (hmem : (typeId, limit) ∈ tl) :
    ⟨mkTooManyMsg typeId limit (tallyOf (input.getD []) typeId)⟩
        ∈ (validateBentoLayout config input).errors
      ↔ limit < tallyOf (input.getD []) typeId := by
  constructor
  · intro hmsg
    by_cases hfast : config.limits.totalEntries = 0 ∧ (input.getD []).length = 0
    · obtain ⟨h₁, h₂⟩ := hfast
      simp only [validateBentoLayout] at hmsg
      rw [if_pos ⟨h₁, h₂⟩] at hmsg
      have hmsg₂ : (⟨mkTooManyMsg typeId limit (tallyOf (input.getD []) typeId)⟩ : ValidationError)
          ∈ countMismatchErrors config.limits.totalEntries (input.getD []) := hmsg
      unfold countMismatchErrors at hmsg₂
      rw [if_neg (by omega)] at hmsg₂
      exact absurd hmsg₂ (List.not_mem_nil _)
    · rw [validate_errors_of_not_fast config input hfast] at hmsg
      rcases List.mem_append.mp hmsg with h₁₂ | h₃
      · rcases List.mem_append.mp h₁₂ with h₁ | h₂
        · have hE : (mkTooManyMsg typeId limit (tallyOf (input.getD []) typeId)).data.head?
              = some 'E' := mem_countMismatchErrors_head _ _ _ h₁
          rw [head_mkTooManyMsg] at hE
          exact absurd hE (by decide)
        · have hMCI : (mkTooManyMsg typeId limit (tallyOf (input.getD []) typeId)).data.head?
                = some 'M'
              ∨ (mkTooManyMsg typeId limit (tallyOf (input.getD []) typeId)).data.head?
                = some 'C'
              ∨ (mkTooManyMsg typeId limit (tallyOf (input.getD []) typeId)).data.head?
                = some 'I' := mem_positionErrors_head _ _ _ h₂
          rw [head_mkTooManyMsg] at hMCI
          rcases hMCI with hx | hx | hx <;> exact absurd hx (by decide)
      · rw [htl] at h₃
        simp only [typeLimitErrors, List.mem_flatMap] at h₃
        obtain ⟨p, hp, hif⟩ := h₃
        by_cases hC : tallyOf (input.getD []) p.1 > p.2
        · rw [if_pos hC] at hif
          have hmsgeq : mkTooManyMsg typeId limit (tallyOf (input.getD []) typeId)
              = mkTooManyMsg p.1 p.2 (tallyOf (input.getD []) p.1) :=
            congrArg ValidationError.message (List.mem_singleton.mp hif)
          obtain ⟨ht, hl, -⟩ := mkTooManyMsg_inj _ _ _ _ _ _ hmsgeq
          rw [ht, hl]
          exact hC
        · rw [if_neg hC] at hif
          exact absurd hif (List.not_mem_nil _)
  · intro hgt
    have hlen : (input.getD []).length ≠ 0 := by
      intro h₀
      rw [List.length_eq_zero.mp h₀] at hgt
      exact absurd hgt (by simp [tallyOf])
    have hfast : ¬ (config.limits.totalEntries = 0 ∧ (input.getD []).length = 0) :=
      fun hc => hlen hc.2
    rw [validate_errors_of_not_fast config input hfast]
    refine List.mem_append.mpr (Or.inr ?_)
    rw [htl]
    simp only [typeLimitErrors]
    refine List.mem_flatMap.mpr ⟨(typeId, limit), hmem, ?_⟩
    show (⟨mkTooManyMsg typeId limit (tallyOf (input.getD []) typeId)⟩ : ValidationError)
      ∈ if tallyOf (input.getD []) typeId > limit then
          [⟨mkTooManyMsg typeId limit (tallyOf (input.getD []) typeId)⟩] else []
    rw [if_pos hgt]
    exact List.mem_singleton.mpr rfl

/-- Witness for C2, both directions meaningful: two cardTypeA entries
against a limit of one. -/
theorem C2_type_limit_iff_witness :
    (⟨mkTooManyMsg "cardTypeA" 1
        (tallyOf (((some [entryOfType "cardTypeA", entryOfType "cardTypeA",
            entryOfType "cardTypeB"]) : Option (List (Option EntryProps))).getD [])
          "cardTypeA")⟩
        ∈ (validateBentoLayout bentoConfig
            (some [entryOfType "cardTypeA", entryOfType "cardTypeA",
              entryOfType "cardTypeB"])).errors)
      ↔ 1 < tallyOf (((some [entryOfType "cardTypeA", entryOfType "cardTypeA",
            entryOfType "cardTypeB"]) : Option (List (Option EntryProps))).getD [])
          "cardTypeA" :=
  C2_type_limit_iff bentoConfig
    (some [entryOfType "cardTypeA", entryOfType "cardTypeA", entryOfType "cardTypeB"])
    "cardTypeA" 1 [("cardTypeA", 1), ("cardTypeB", 2), ("cardTypeC", 1)] rfl (by decide)

/-- C4: when the item count differs from `totalEntries`, the error list is
exactly the count-mismatch message followed by the slot and type-limit
errors of the same call (no short-circuit), that message occurs exactly
once, and the result is invalid. -/
theorem C4_count_mismatch (config : ValidationConfig)
    (input : Option (List (Option EntryProps)))
    (h : (input.getD []).length ≠ config.limits.totalEntries) :
    (validateBentoLayout config input).errors
      = ⟨mkCountMismatchMsg config.limits.totalEntries (input.getD []).length⟩
          :: (positionErrors config.positions (input.getD [])
            ++ typeLimitErrors config.limits.typeLimits (input.getD []))
      ∧ (validateBentoLayout config input).errors.count
          ⟨mkCountMismatchMsg config.limits.totalEntries (input.getD []).length⟩ = 1
      ∧ (validateBentoLayout config input).isValid = false := by
  have hfast : ¬ (config.limits.totalEntries = 0 ∧ (input.getD []).length = 0) :=
    fun hc => h (by omega)
  have herr : (validateBentoLayout config input).errors
      = ⟨mkCountMismatchMsg config.limits.totalEntries (input.getD []).length⟩
        :: (positionErrors config.positions (input.getD [])
          ++ typeLimitErrors config.limits.typeLimits (input.getD [])) := by
    rw [validate_errors_of_not_fast config input hfast]
    unfold countMismatchErrors
    rw [if_pos h]
    simp [List.append_assoc]
  have hnotmem : (⟨mkCountMismatchMsg config.limits.totalEntries
        (input.getD []).length⟩ : ValidationError)
      ∉ positionErrors config.positions (input.getD [])
        ++ typeLimitErrors config.limits.typeLimits (input.getD []) := by
    intro hmem
    rcases List.mem_append.mp hmem with hp | ht
    · have h₂ : (mkCountMismatchMsg config.limits.totalEntries (input.getD []).length).data.head?
            = some 'M'
          ∨ (mkCountMismatchMsg config.limits.totalEntries (input.getD []).length).data.head?
            = some 'C'
          ∨ (mkCountMismatchMsg config.limits.totalEntries (input.getD []).length).data.head?
            = some 'I' := mem_positionErrors_head _ _ _ hp
      rw [head_mkCountMismatchMsg] at h₂
      rcases h₂ with hx | hx | hx <;> exact absurd hx (by decide)
    · have h₂ : (mkCountMismatchMsg config.limits.totalEntries (input.getD []).length).data.head?
          = some 'T' := mem_typeLimitErrors_head _ _ _ ht
      rw [head_mkCountMismatchMsg] at h₂
      exact absurd h₂ (by decide)
  refine ⟨herr, ?_, ?_⟩
  · rw [herr]
    simp [List.count_cons_self, List.count_eq_zero.mpr hnotmem]
  · rw [validate_isValid_eq config input, herr]
    simp

/-- Witness for C4: one item provided where the bento-1-2 layout expects
three. -/
theorem C4_count_mismatch_witness :
    (validateBentoLayout bentoConfig (some [entryOfType "cardTypeA"])).errors
      = ⟨mkCountMismatchMsg bentoConfig.limits.totalEntries
            ((((some [entryOfType "cardTypeA"])
              : Option (List (Option EntryProps))).getD []).length)⟩
          :: (positionErrors bentoConfig.positions
              (((some [entryOfType "cardTypeA"])
                : Option (List (Option EntryProps))).getD [])
            ++ typeLimitErrors bentoConfig.limits.typeLimits
              (((some [entryOfType "cardTypeA"])
                : Option (List (Option EntryProps))).getD []))
      ∧ (validateBentoLayout bentoConfig (some [entryOfType "cardTypeA"])).errors.count
          ⟨mkCountMismatchMsg bentoConfig.limits.totalEntries
            ((((some [entryOfType "cardTypeA"])
              : Option (List (Option EntryProps))).getD []).length)⟩ = 1
      ∧ (validateBentoLayout bentoConfig (some [entryOfType "cardTypeA"])).isValid = false :=
  C4_count_mismatch bentoConfig (some [entryOfType "cardTypeA"]) (by decide)

/-- Witness for C10: a slot at index -1 over a one-item list is reported
missing, and the message reaches the overall result. -/
theorem C10_negative_index_always_missing_witness :
    entryAt [entryOfType "cardTypeA"] (-1) = none
      ∧ slotErrors [entryOfType "cardTypeA"] "brokenSlot"
          { index := -1, allowedTypes := ["cardTypeA"] }
        = [⟨mkMissingMsg (-1) "brokenSlot"⟩]
      ∧ ⟨mkMissingMsg (-1) "brokenSlot"⟩
          ∈ (validateBentoLayout negativeIndexConfig (some [entryOfType "cardTypeA"])).errors := by
  have h := C10_negative_index_always_missing [entryOfType "cardTypeA"] "brokenSlot"
    { index := -1, allowedTypes := ["cardTypeA"] } (by decide)
  exact ⟨h.1, h.2.1, h.2.2 negativeIndexConfig (some [entryOfType "cardTypeA"])
    (by decide) rfl (by decide)⟩
